import Mathlib

/-!
Verification of the AskDocProjet email question-answering / document-import
system against its specification. The TypeScript / JavaScript sources are
shallowly embedded: pure string and arithmetic routines become Lean
functions; database and filesystem state become explicit values threaded
through the functions; external services (the inference provider, the
SHA-256 digest, the PDF library, base64 decoding) become function
parameters, so that every embedded operation stays executable.
-/

namespace AskDoc

/-! ## Thread utilities (src/traitement-ia/src/utils/thread-utils.ts)

`extractBaseSubject` strips leading `RE:` / `FW:` / `FWD:` markers
(case-insensitive, optional whitespace around the colon) until none remain,
trimming the subject first and last.  `computeSubjectHash` lower-cases the
base subject and hashes it (SHA-256 hex, truncated to 16 characters); the
digest itself is an external library call and is a parameter here. -/

/-- The whitespace characters handled by the JavaScript `\s` class and
`String.prototype.trim` that the program can actually encounter. -/
def jsWs (c : Char) : Bool :=
  c = ' ' || c = '\t' || c = '\n' || c = '\r' || c = '\x0b' || c = '\x0c'

/-- Remove trailing whitespace (the right half of `String.prototype.trim`). -/
def trimRight (l : List Char) : List Char :=
  (l.reverse.dropWhile jsWs).reverse

/-- Remove leading whitespace (the left half of `String.prototype.trim`). -/
def trimLeft (l : List Char) : List Char :=
  l.dropWhile jsWs

/-- `String.prototype.trim` on character lists. -/
def trimChars (l : List Char) : List Char :=
  trimLeft (trimRight l)

/-- Case-insensitive match of a (lower-case) token against the head of a
character list, as the `i` flag of the regex `/^(re|fwd|fw)[\s]*:[\s]*/i`
does; returns the remainder after the token. -/
def matchCI : List Char → List Char → Option (List Char)
  | [], l => some l
  | _ :: _, [] => none
  | t :: ts, c :: cs => if c.toLower = t then matchCI ts cs else none

/-- Try to strip one alternative of the regex: the token, then `[\s]*`,
then `:`, then `[\s]*`. -/
def stripTok (tok : List Char) (l : List Char) : Option (List Char) :=
  match matchCI tok l with
  | none => none
  | some r1 =>
    match r1.dropWhile jsWs with
    | c :: r3 => if c = ':' then some (r3.dropWhile jsWs) else none
    | [] => none

/-- One application of `base.replace(/^(re|fwd|fw)[\s]*:[\s]*/i, '')`:
the regex alternation tries `re`, then `fwd`, then `fw`.  `none` means the
regex did not match, so `replace` leaves the string unchanged. -/
def stripOnce (l : List Char) : Option (List Char) :=
  match stripTok ['r', 'e'] l with
  | some r => some r
  | none =>
    match stripTok ['f', 'w', 'd'] l with
    | some r => some r
    | none => stripTok ['f', 'w'] l

theorem matchCI_length {tok l r : List Char} (h : matchCI tok l = some r) :
    r.length ≤ l.length := by
  induction tok generalizing l with
  | nil => simp [matchCI] at h; simp [h]
  | cons t ts ih =>
    cases l with
    | nil => simp [matchCI] at h
    | cons c cs =>
      simp only [matchCI] at h
      split at h
      · exact Nat.le_succ_of_le (ih h)
      · exact absurd h (by simp)

theorem stripTok_length {tok l r : List Char} (h : stripTok tok l = some r) :
    r.length < l.length := by
  unfold stripTok at h
  cases hm : matchCI tok l with
  | none => rw [hm] at h; exact absurd h (by simp)
  | some r1 =>
    rw [hm] at h
    dsimp only at h
    have h1 : r1.length ≤ l.length := matchCI_length hm
    cases hd : r1.dropWhile jsWs with
    | nil => rw [hd] at h; exact absurd h (by simp)
    | cons c r3 =>
      rw [hd] at h
      dsimp only at h
      have h2 : (r1.dropWhile jsWs).length ≤ r1.length :=
        (List.dropWhile_sublist jsWs).length_le
      rw [hd] at h2
      split at h
      · cases h
        have h3 : (r3.dropWhile jsWs).length ≤ r3.length :=
          (List.dropWhile_sublist jsWs).length_le
        simp only [List.length_cons] at h2
        omega
      · exact absurd h (by simp)

theorem stripOnce_length {l r : List Char} (h : stripOnce l = some r) :
    r.length < l.length := by
  unfold stripOnce at h
  cases h1 : stripTok ['r', 'e'] l with
  | some r1 => rw [h1] at h; cases h; exact stripTok_length h1
  | none =>
    rw [h1] at h
    cases h2 : stripTok ['f', 'w', 'd'] l with
    | some r2 => rw [h2] at h; cases h; exact stripTok_length h2
    | none => rw [h2] at h; exact stripTok_length h

/-- The `while (previousBase !== base)` loop of `extractBaseSubject`:
keep removing a leading reply/forward marker until the regex no longer
matches. -/
def stripAll (l : List Char) : List Char :=
  match h : stripOnce l with
  | some r => stripAll r
  | none => l
termination_by l.length
decreasing_by exact stripOnce_length h

theorem stripAll_of_some {l r : List Char} (h : stripOnce l = some r) :
    stripAll l = stripAll r := by
  rw [stripAll]; split
  · rename_i r' h'; rw [h] at h'; cases h'; rfl
  · rename_i h'; rw [h] at h'; cases h'

theorem stripAll_of_none {l : List Char} (h : stripOnce l = none) :
    stripAll l = l := by
  rw [stripAll]; split
  · rename_i r' h'; rw [h] at h'; cases h'
  · rfl

/-- `extractBaseSubject(subject)`: trim, strip markers repeatedly, trim. -/
def extractBaseSubject (s : String) : String :=
  if s = "" then ""
  else ⟨trimChars (stripAll (trimChars s.data))⟩

/-- `String.prototype.toLowerCase()` (character-wise lower-casing). -/
def toLowerStr (s : String) : String :=
  ⟨s.data.map Char.toLower⟩

/-- `computeSubjectHash(subject)`: 16-character truncation of the SHA-256
hex digest of the lower-cased base subject, with the fixed sentinel
`__empty_subject__` when the base subject is empty.  `digest` stands for
the external `createHash('sha256')...digest('hex')` call. -/
def computeSubjectHash (digest : String → String) (subject : String) : String :=
  let base := toLowerStr (extractBaseSubject subject)
  if base = "" then (digest "__empty_subject__").take 16
  else (digest base).take 16

/-! ### Normalization lemmas -/

theorem jsWs_toLower {c : Char} (h : jsWs c = true) : c.toLower = c := by
  simp only [jsWs, Bool.or_eq_true, decide_eq_true_eq] at h
  rcases h with ((((h | h) | h) | h) | h) | h <;> subst h <;> decide

theorem not_jsWs_of_toLower {c : Char} {t : Char} (ht : c.toLower = t)
    (htw : jsWs t = false) : jsWs c = false := by
  by_contra hc
  simp only [Bool.not_eq_false] at hc
  rw [jsWs_toLower hc] at ht
  subst ht
  rw [hc] at htw
  cases htw

theorem trimRight_eq_nil {l : List Char} (h : ∀ c ∈ l, jsWs c = true) :
    trimRight l = [] := by
  unfold trimRight
  rw [List.dropWhile_eq_nil_iff.mpr (by intro x hx; exact h x (List.mem_reverse.mp hx))]
  rfl

theorem trimLeft_append_allWs {w x : List Char} (h : ∀ c ∈ w, jsWs c = true) :
    trimLeft (w ++ x) = trimLeft x :=
  List.dropWhile_append_of_pos h

/-- Right trim distributes over append: it removes the right part's trailing
whitespace, and eats into the left part only when the right part is all
whitespace. -/
theorem trimRight_append (a b : List Char) :
    trimRight (a ++ b) = if trimRight b = [] then trimRight a else a ++ trimRight b := by
  unfold trimRight
  rw [List.reverse_append, List.dropWhile_append]
  by_cases hb : List.dropWhile jsWs b.reverse = []
  · simp [hb]
  · simp [hb, List.isEmpty_iff]

theorem trimRight_append_nonWs (x y : List Char) {c : Char} (hc : jsWs c = false) :
    trimRight (x ++ c :: y) = x ++ c :: trimRight y := by
  have h1 : trimRight (c :: y) = c :: trimRight y := by
    unfold trimRight
    rw [List.reverse_cons, List.dropWhile_append]
    have hdc : List.dropWhile jsWs [c] = [c] :=
      List.dropWhile_cons_of_neg (by simp [hc])
    by_cases hy : List.dropWhile jsWs y.reverse = []
    · simp [hy, hdc]
    · simp [hy, List.isEmpty_iff]
  rw [trimRight_append, h1, if_neg (by simp)]

theorem trimChars_append_allWs {w x : List Char} (h : ∀ c ∈ w, jsWs c = true) :
    trimChars (w ++ x) = trimChars x := by
  unfold trimChars
  rw [trimRight_append]
  split
  · rename_i hx
    rw [hx, trimRight_eq_nil h]
  · exact trimLeft_append_allWs h

/-- The regex token alternatives, case-insensitively: the stripped marker
starts with `re`, `fw` or `fwd`. -/
def TokMatch (tok : List Char) : Prop :=
  tok.map Char.toLower = ['r', 'e'] ∨ tok.map Char.toLower = ['f', 'w'] ∨
    tok.map Char.toLower = ['f', 'w', 'd']

instance (tok : List Char) : Decidable (TokMatch tok) := by
  unfold TokMatch; infer_instance

theorem TokMatch.ne_nil {tok : List Char} (h : TokMatch tok) : tok ≠ [] := by
  rcases h with h | h | h <;> (intro hnil; subst hnil; simp_all)

theorem TokMatch.head_not_ws {t0 : Char} {ts : List Char}
    (h : TokMatch (t0 :: ts)) : jsWs t0 = false := by
  rcases h with h | h | h <;>
    (simp only [List.map_cons, List.cons.injEq] at h
     exact not_jsWs_of_toLower h.1 (by decide))

/-- After trimming, a string that starts (past leading whitespace) with a
reply/forward marker has the shape
`marker-token ++ inner-whitespace ++ ':' ++ rest`. -/
theorem trimChars_marker {w tok w1 : List Char} (rest : List Char)
    (hw : ∀ c ∈ w, jsWs c = true) (ht : TokMatch tok) :
    trimChars (w ++ tok ++ w1 ++ ':' :: rest) =
      tok ++ w1 ++ ':' :: trimRight rest := by
  rw [show w ++ tok ++ w1 ++ ':' :: rest = w ++ (tok ++ w1 ++ ':' :: rest) by
    simp [List.append_assoc]]
  rw [trimChars_append_allWs hw]
  unfold trimChars
  rw [show tok ++ w1 ++ ':' :: rest = (tok ++ w1) ++ ':' :: rest by
    simp [List.append_assoc]]
  rw [trimRight_append_nonWs (tok ++ w1) rest (by decide)]
  obtain ⟨t0, ts, rfl⟩ : ∃ t0 ts, tok = t0 :: ts := by
    cases tok with
    | nil => exact absurd rfl ht.ne_nil
    | cons a l => exact ⟨a, l, rfl⟩
  unfold trimLeft
  rw [show (t0 :: ts ++ w1) ++ ':' :: trimRight rest =
        t0 :: (ts ++ w1 ++ ':' :: trimRight rest) by simp [List.append_assoc]]
  rw [List.dropWhile_cons_of_neg (by simp [ht.head_not_ws])]

theorem dropWhile_allWs_colon {w1 R : List Char} (hw1 : ∀ c ∈ w1, jsWs c = true) :
    List.dropWhile jsWs (w1 ++ ':' :: R) = ':' :: R := by
  rw [List.dropWhile_append_of_pos hw1]
  exact List.dropWhile_cons_of_neg (by decide)

theorem matchCI_two {a b : Char} {x : List Char} {ta tb : Char}
    (ha : a.toLower = ta) (hb : b.toLower = tb) :
    matchCI [ta, tb] (a :: b :: x) = some x := by
  simp [matchCI, ha, hb]

theorem stripTok_hit {tok l r1 : List Char} {w1 R : List Char}
    (hm : matchCI tok l = some r1) (hr : r1 = w1 ++ ':' :: R)
    (hw1 : ∀ c ∈ w1, jsWs c = true) :
    stripTok tok l = some (R.dropWhile jsWs) := by
  subst hr
  unfold stripTok
  rw [hm]
  dsimp only
  rw [dropWhile_allWs_colon hw1]
  simp

theorem stripTok_nomatch {tok l : List Char} (hm : matchCI tok l = none) :
    stripTok tok l = none := by
  unfold stripTok
  rw [hm]

/-- Stripping one marker from a string of the marker shape always succeeds
and consumes the token, the inner whitespace, the colon and the following
whitespace — whichever of the three regex alternatives applies. -/
theorem stripOnce_marker {tok w1 : List Char} (R : List Char)
    (ht : TokMatch tok) (hw1 : ∀ c ∈ w1, jsWs c = true) :
    stripOnce (tok ++ w1 ++ ':' :: R) = some (R.dropWhile jsWs) := by
  rcases ht with h | h | h
  · -- `re` alternative
    obtain ⟨a, b, rfl⟩ : ∃ a b, tok = [a, b] := by
      cases tok with
      | nil => simp at h
      | cons a l =>
        cases l with
        | nil => simp at h
        | cons b l2 =>
          cases l2 with
          | nil => exact ⟨a, b, rfl⟩
          | cons c l3 => simp at h
    simp only [List.map_cons, List.map_nil, List.cons.injEq, and_true] at h
    have hre : stripTok ['r', 'e'] ([a, b] ++ w1 ++ ':' :: R) =
        some (R.dropWhile jsWs) :=
      stripTok_hit (by simpa using matchCI_two h.1 h.2) rfl hw1
    unfold stripOnce
    rw [hre]
  · -- `fw` alternative (the regex tries `re` and `fwd` first)
    obtain ⟨a, b, rfl⟩ : ∃ a b, tok = [a, b] := by
      cases tok with
      | nil => simp at h
      | cons a l =>
        cases l with
        | nil => simp at h
        | cons b l2 =>
          cases l2 with
          | nil => exact ⟨a, b, rfl⟩
          | cons c l3 => simp at h
    simp only [List.map_cons, List.map_nil, List.cons.injEq, and_true] at h
    have hne : a.toLower ≠ 'r' := by rw [h.1]; decide
    have hre : stripTok ['r', 'e'] ([a, b] ++ w1 ++ ':' :: R) = none :=
      stripTok_nomatch (by simp [matchCI, hne])
    have hfwd : stripTok ['f', 'w', 'd'] ([a, b] ++ w1 ++ ':' :: R) = none := by
      apply stripTok_nomatch
      show matchCI ['f', 'w', 'd'] (a :: b :: (w1 ++ ':' :: R)) = none
      simp only [matchCI, h.1, h.2, if_pos rfl]
      cases w1 with
      | nil => simp [matchCI]
      | cons wc wrest =>
        have hwc : jsWs wc = true := hw1 wc (by simp)
        have hwd : wc.toLower ≠ 'd' := by
          rw [jsWs_toLower hwc]
          intro hcd
          subst hcd
          cases hwc
        simp [matchCI, hwd]
    have hfw : stripTok ['f', 'w'] ([a, b] ++ w1 ++ ':' :: R) =
        some (R.dropWhile jsWs) :=
      stripTok_hit (by simpa using matchCI_two h.1 h.2) rfl hw1
    unfold stripOnce
    rw [hre, hfwd, hfw]
  · -- `fwd` alternative
    obtain ⟨a, b, c, rfl⟩ : ∃ a b c, tok = [a, b, c] := by
      cases tok with
      | nil => simp at h
      | cons a l =>
        cases l with
        | nil => simp at h
        | cons b l2 =>
          cases l2 with
          | nil => simp at h
          | cons c l3 =>
            cases l3 with
            | nil => exact ⟨a, b, c, rfl⟩
            | cons d l4 => simp at h
    simp only [List.map_cons, List.map_nil, List.cons.injEq, and_true] at h
    have hne : a.toLower ≠ 'r' := by rw [h.1]; decide
    have hre : stripTok ['r', 'e'] ([a, b, c] ++ w1 ++ ':' :: R) = none :=
      stripTok_nomatch (by simp [matchCI, hne])
    have hfwd : stripTok ['f', 'w', 'd'] ([a, b, c] ++ w1 ++ ':' :: R) =
        some (R.dropWhile jsWs) :=
      stripTok_hit
        (show matchCI ['f', 'w', 'd'] ([a, b, c] ++ w1 ++ ':' :: R) =
            some (w1 ++ ':' :: R) by simp [matchCI, h.1, h.2.1, h.2.2])
        rfl hw1
    unfold stripOnce
    rw [hre, hfwd]

/-- `extractBaseSubject` on raw character lists. -/
def extractChars (l : List Char) : List Char :=
  trimChars (stripAll (trimChars l))

theorem extractChars_nil : extractChars ([] : List Char) = [] := by
  have h0 : stripOnce ([] : List Char) = none := rfl
  unfold extractChars
  rw [show trimChars ([] : List Char) = [] from rfl, stripAll_of_none h0]
  rfl

theorem extractBaseSubject_eq_extractChars (s : String) :
    extractBaseSubject s = ⟨extractChars s.data⟩ := by
  unfold extractBaseSubject
  split
  · rename_i hs
    subst hs
    rw [show "".data = ([] : List Char) from rfl, extractChars_nil]
  · rfl

/-- Prepending `whitespace ++ token ++ whitespace ++ ':'` to any subject
does not change the extracted base subject. -/
theorem extractChars_marker_step (w tok w1 rest : List Char)
    (hw : ∀ c ∈ w, jsWs c = true) (ht : TokMatch tok)
    (hw1 : ∀ c ∈ w1, jsWs c = true) :
    extractChars (w ++ tok ++ w1 ++ ':' :: rest) = extractChars rest := by
  unfold extractChars
  rw [trimChars_marker rest hw ht]
  rw [show tok ++ w1 ++ ':' :: trimRight rest =
        tok ++ w1 ++ ':' :: (trimRight rest) by rfl]
  rw [stripAll_of_some (stripOnce_marker (trimRight rest) ht hw1)]
  rfl

theorem extractChars_allWs_append {w x : List Char}
    (hw : ∀ c ∈ w, jsWs c = true) :
    extractChars (w ++ x) = extractChars x := by
  unfold extractChars
  rw [trimChars_append_allWs hw]

/-- A marker followed by a space: `extractChars (tok ++ w1 ++ ": " ++ x)`
is `extractChars x`. -/
theorem extract_marker_sp (tok w1 : List Char) (ht : TokMatch tok)
    (hw1 : ∀ c ∈ w1, jsWs c = true) (x : List Char) :
    extractChars (tok ++ w1 ++ ':' :: ' ' :: x) = extractChars x := by
  have h1 := extractChars_marker_step [] tok w1 (' ' :: x) (by simp) ht hw1
  have h2 : extractChars ([' '] ++ x) = extractChars x :=
    extractChars_allWs_append (by decide)
  simp only [List.nil_append] at h1
  simpa using h1.trans h2

/-- A marker with nothing after the colon:
`extractChars (tok ++ w1 ++ ":" ++ x)` is `extractChars x`. -/
theorem extract_marker_nosp (tok w1 : List Char) (ht : TokMatch tok)
    (hw1 : ∀ c ∈ w1, jsWs c = true) (x : List Char) :
    extractChars (tok ++ w1 ++ ':' :: x) = extractChars x := by
  have h1 := extractChars_marker_step [] tok w1 x (by simp) ht hw1
  simpa using h1

/-- The reply/forward markers of the spec: `RE:`, `FW:`, `FWD:`,
case-insensitive, with optional space before the colon and an optional
trailing space. -/
def replyMarkers : List String :=
  ["RE: ", "Re: ", "re: ", "RE:", "re:", "RE : ",
   "FW: ", "Fw: ", "fw: ", "FW:", "fw:", "FW : ",
   "FWD: ", "Fwd: ", "fwd: ", "FWD:", "fwd:", "FWD : "]

theorem extractBaseSubject_marker {p : String} (hp : p ∈ replyMarkers)
    (s : String) : extractBaseSubject (p ++ s) = extractBaseSubject s := by
  rw [extractBaseSubject_eq_extractChars (p ++ s),
    extractBaseSubject_eq_extractChars s]
  refine congrArg String.mk ?_
  rw [String.data_append]
  fin_cases hp
  · exact extract_marker_sp ['R', 'E'] [] (by decide) (by decide) s.data
  · exact extract_marker_sp ['R', 'e'] [] (by decide) (by decide) s.data
  · exact extract_marker_sp ['r', 'e'] [] (by decide) (by decide) s.data
  · exact extract_marker_nosp ['R', 'E'] [] (by decide) (by decide) s.data
  · exact extract_marker_nosp ['r', 'e'] [] (by decide) (by decide) s.data
  · exact extract_marker_sp ['R', 'E'] [' '] (by decide) (by decide) s.data
  · exact extract_marker_sp ['F', 'W'] [] (by decide) (by decide) s.data
  · exact extract_marker_sp ['F', 'w'] [] (by decide) (by decide) s.data
  · exact extract_marker_sp ['f', 'w'] [] (by decide) (by decide) s.data
  · exact extract_marker_nosp ['F', 'W'] [] (by decide) (by decide) s.data
  · exact extract_marker_nosp ['f', 'w'] [] (by decide) (by decide) s.data
  · exact extract_marker_sp ['F', 'W'] [' '] (by decide) (by decide) s.data
  · exact extract_marker_sp ['F', 'W', 'D'] [] (by decide) (by decide) s.data
  · exact extract_marker_sp ['F', 'w', 'd'] [] (by decide) (by decide) s.data
  · exact extract_marker_sp ['f', 'w', 'd'] [] (by decide) (by decide) s.data
  · exact extract_marker_nosp ['F', 'W', 'D'] [] (by decide) (by decide) s.data
  · exact extract_marker_nosp ['f', 'w', 'd'] [] (by decide) (by decide) s.data
  · exact extract_marker_sp ['F', 'W', 'D'] [' '] (by decide) (by decide) s.data

/-- C7: the conversation thread hash is invariant under prepending a
reply/forward marker (`RE:` / `FW:` / `FWD:`, case-insensitive, optional
space before the colon): `computeSubjectHash("RE: " + S)` equals
`computeSubjectHash(S)` for every subject `S`, because normalization
iteratively strips leading markers until none remain, then lower-cases and
hashes; nesting any number of markers follows by repeated application. -/
theorem subjectHash_invariant_under_reply_marker (digest : String → String)
    {p : String} (hp : p ∈ replyMarkers) (s : String) :
    computeSubjectHash digest (p ++ s) = computeSubjectHash digest s := by
  unfold computeSubjectHash
  rw [extractBaseSubject_marker hp s]

/-- Witness for C7 at the concrete subject `"Question sur contrat"` and the
marker `"RE: "`. -/
theorem subjectHash_invariant_under_reply_marker_witness :
    "RE: " ∈ replyMarkers ∧
      computeSubjectHash (fun x => x) ("RE: " ++ "Question sur contrat") =
        computeSubjectHash (fun x => x) "Question sur contrat" :=
  ⟨by decide,
    subjectHash_invariant_under_reply_marker (fun x => x) (by decide)
      "Question sur contrat"⟩

/-! ## Conversation thread store (src/unnamed/part_005, ConversationThreadService)

One JSON file per thread, named by the subject hash.  `loadThread` resolves
the file `[subject-hash].json`; the file system content is modelled as a
map from subject hash to the parsed thread (a missing or unparsable file is
`none`).  Base64 decoding is the external `Buffer.from(..., 'base64')` call
and is a parameter. -/

/-- A PDF stored in a conversation thread file. -/
structure ThreadPdf where
  filename : String
  hash : String
  contentBase64 : String
  capturedAt : String

/-- A conversation thread file. -/
structure ConvThread where
  baseSubject : String
  baseSubjectHash : String
  createdAt : String
  lastUpdated : String
  sender : String
  pdfContext : List ThreadPdf

/-- A decoded PDF attachment (filename plus raw bytes). -/
structure PdfAttachment where
  filename : String
  buffer : List Nat

/-- Result of `getThreadPdfs`. -/
structure ThreadPdfResult where
  pdfs : List PdfAttachment
  fromHistory : Bool
  threadHash : String

/-- `loadThread(subject)`: read `threadDir/[computeSubjectHash(subject)].json`. -/
def loadThread (fs : String → Option ConvThread) (digest : String → String)
    (subject : String) : Option ConvThread :=
  fs (computeSubjectHash digest subject)

/-- `getThreadPdfs(subject)`: return the decoded PDFs of the subject's
thread, or `null` when there is no thread, the thread has no PDFs, or no
PDF decodes. -/
def getThreadPdfs (digest : String → String)
    (decode : String → Option (List Nat)) (fs : String → Option ConvThread)
    (subject : String) : Option ThreadPdfResult :=
  match loadThread fs digest subject with
  | none => none
  | some thread =>
    if thread.pdfContext.length = 0 then none
    else
      let pdfs := thread.pdfContext.filterMap fun tp =>
        (decode tp.contentBase64).map fun buf => PdfAttachment.mk tp.filename buf
      if pdfs.length = 0 then none
      else some ⟨pdfs, true, thread.baseSubjectHash⟩

/-- Subjects consisting only of whitespace and/or reply/forward markers
(including the empty subject): optional whitespace, then any number of
markers, each a token (`re` / `fw` / `fwd`, case-insensitive) followed by
optional whitespace and a colon. -/
inductive MarkerOnly : List Char → Prop where
  | allWs : ∀ l, (∀ c ∈ l, jsWs c = true) → MarkerOnly l
  | marker : ∀ w tok w1 rest, (∀ c ∈ w, jsWs c = true) → TokMatch tok →
      (∀ c ∈ w1, jsWs c = true) → MarkerOnly rest →
      MarkerOnly (w ++ tok ++ w1 ++ ':' :: rest)

theorem trimChars_eq_nil {l : List Char} (h : ∀ c ∈ l, jsWs c = true) :
    trimChars l = [] := by
  unfold trimChars
  rw [trimRight_eq_nil h]
  rfl

theorem extractChars_markerOnly {l : List Char} (h : MarkerOnly l) :
    extractChars l = [] := by
  induction h with
  | allWs l hl =>
    have h0 : stripOnce ([] : List Char) = none := rfl
    unfold extractChars
    rw [trimChars_eq_nil hl, stripAll_of_none h0]
    rfl
  | marker w tok w1 rest hw ht hw1 _ ih =>
    rw [extractChars_marker_step w tok w1 rest hw ht hw1]
    exact ih

theorem extractBaseSubject_markerOnly {s : String} (h : MarkerOnly s.data) :
    extractBaseSubject s = "" := by
  rw [extractBaseSubject_eq_extractChars, extractChars_markerOnly h]

theorem computeSubjectHash_sentinel (digest : String → String) {s : String}
    (hs : extractBaseSubject s = "") :
    computeSubjectHash digest s = (digest "__empty_subject__").take 16 := by
  have hb : toLowerStr "" = "" := rfl
  unfold computeSubjectHash
  rw [hs, if_pos hb]

/-- C10: every subject consisting only of whitespace and/or reply/forward
markers (including the empty subject) hashes to the single sentinel value
`hash("__empty_subject__")` truncated to 16 characters, so all such
messages resolve to the same conversation thread file and `getThreadPdfs`
returns the same stored PDFs for any of them. -/
theorem emptyish_subjects_share_thread (digest : String → String)
    (decode : String → Option (List Nat)) (fs : String → Option ConvThread)
    (s1 s2 : String) (h1 : MarkerOnly s1.data) (h2 : MarkerOnly s2.data) :
    computeSubjectHash digest s1 = (digest "__empty_subject__").take 16 ∧
      getThreadPdfs digest decode fs s1 = getThreadPdfs digest decode fs s2 := by
  have e1 := computeSubjectHash_sentinel digest (extractBaseSubject_markerOnly h1)
  have e2 := computeSubjectHash_sentinel digest (extractBaseSubject_markerOnly h2)
  refine ⟨e1, ?_⟩
  unfold getThreadPdfs loadThread
  rw [e1, e2]

/-- Witness for C10 at the subjects `"RE:"` and `" "`. -/
theorem emptyish_subjects_share_thread_witness :
    computeSubjectHash (fun x => x) "RE:" =
        ((fun x : String => x) "__empty_subject__").take 16 ∧
      getThreadPdfs (fun x => x) (fun _ => none) (fun _ => none) "RE:" =
        getThreadPdfs (fun x => x) (fun _ => none) (fun _ => none) " " :=
  emptyish_subjects_share_thread (fun x => x) (fun _ => none) (fun _ => none)
    "RE:" " "
    (MarkerOnly.marker [] ['R', 'E'] [] [] (by simp) (by decide) (by simp)
      (MarkerOnly.allWs [] (by simp)))
    (MarkerOnly.allWs [' '] (by decide))

/-! ## Flow router (src/traitement-ia/src/processors/flow-router.ts,
bundled with compiler-processor.ts)

`extractModelLevel` looks for `(max)` / `(pro)` anywhere in the
lower-cased subject; `getModelName` maps the level to the three fixed
Mistral model identifiers.  Every pipeline stage (indexation, preselection,
reader, compiler) calls `getModelName(modelLevel)` on the level extracted
once from the subject. -/

/-- The three model tiers. -/
inductive ModelLevel where
  | standard
  | pro
  | max
deriving DecidableEq, Repr

/-- `String.prototype.includes`: substring occurrence anywhere. -/
def jsIncludes (s sub : String) : Bool :=
  decide (sub.data <:+: s.data)

/-- `extractModelLevel(subject)`. -/
def extractModelLevel (subject : String) : ModelLevel :=
  let lowerSubject := toLowerStr subject
  if jsIncludes lowerSubject "(max)" then ModelLevel.max
  else if jsIncludes lowerSubject "(pro)" then ModelLevel.pro
  else ModelLevel.standard

/-- `getModelName(level)`. -/
def getModelName : ModelLevel → String
  | ModelLevel.max => "mistral-large-latest"
  | ModelLevel.pro => "mistral-medium-latest"
  | ModelLevel.standard => "mistral-small-latest"

/-- `detectFlowType(subject)`: `(add)` anywhere in the lower-cased subject
selects the import flow. -/
def detectFlowTypeIsImport (subject : String) : Bool :=
  jsIncludes (toLowerStr subject) "(add)"

/-- C5 counterexample: the claim says the tags `(medium)` and `(high)`
select the mid and top tier, but `extractModelLevel` only recognizes
`(pro)` and `(max)`; a subject carrying `(medium)` or `(high)` gets the
default tier and the small model. -/
theorem modelLevel_medium_high_unrecognized :
    extractModelLevel "Question (medium)" = ModelLevel.standard ∧
      extractModelLevel "Question (high)" = ModelLevel.standard ∧
      getModelName (extractModelLevel "Question (medium)") ≠
        "mistral-medium-latest" ∧
      getModelName (extractModelLevel "Question (high)") ≠
        "mistral-large-latest" := by
  decide

/-- C5 (amended): the model tier is selected by the case-insensitive tags
`(max)` (top tier, checked first) and `(pro)` (mid tier) appearing anywhere
in the subject; `(medium)` and `(high)` are not tags; absence of a
recognized tag selects the default tier; the tier maps to the fixed model
identifiers used by all four stages through `getModelName`. -/
theorem modelLevel_tag_selection :
    (∀ pre post : String,
        extractModelLevel (pre ++ "(Max)" ++ post) = ModelLevel.max) ∧
    (∀ s : String, jsIncludes (toLowerStr s) "(max)" = false →
        jsIncludes (toLowerStr s) "(pro)" = true →
        extractModelLevel s = ModelLevel.pro) ∧
    (∀ s : String, jsIncludes (toLowerStr s) "(max)" = false →
        jsIncludes (toLowerStr s) "(pro)" = false →
        extractModelLevel s = ModelLevel.standard) ∧
    getModelName ModelLevel.max = "mistral-large-latest" ∧
    getModelName ModelLevel.pro = "mistral-medium-latest" ∧
    getModelName ModelLevel.standard = "mistral-small-latest" := by
  refine ⟨?_, ?_, ?_, rfl, rfl, rfl⟩
  · intro pre post
    have hinf : ("(max)").data <:+: (toLowerStr (pre ++ "(Max)" ++ post)).data := by
      refine ⟨pre.data.map Char.toLower, post.data.map Char.toLower, ?_⟩
      show pre.data.map Char.toLower ++ "(max)".data ++ post.data.map Char.toLower =
        ((pre ++ "(Max)" ++ post).data.map Char.toLower)
      rw [show ("(max)").data = ("(Max)").data.map Char.toLower by decide]
      simp [String.data_append]
    have htrue : jsIncludes (toLowerStr (pre ++ "(Max)" ++ post)) "(max)" = true :=
      decide_eq_true hinf
    simp [extractModelLevel, htrue]
  · intro s h1 h2
    simp [extractModelLevel, h1, h2]
  · intro s h1 h2
    simp [extractModelLevel, h1, h2]

/-- Witness for C5's amended theorem at concrete subjects. -/
theorem modelLevel_tag_selection_witness :
    extractModelLevel ("Urgent " ++ "(Max)" ++ " svp") = ModelLevel.max ∧
      extractModelLevel "question (pro)" = ModelLevel.pro ∧
      extractModelLevel "question simple" = ModelLevel.standard :=
  ⟨modelLevel_tag_selection.1 "Urgent " " svp",
   modelLevel_tag_selection.2.1 "question (pro)" (by decide) (by decide),
   modelLevel_tag_selection.2.2.1 "question simple" (by decide) (by decide)⟩

/-! ## PDF splitter (src/traitement-ia/src/services/pdf-split-service.ts)

The page-count based splitter: a PDF above the per-part page limit (100)
is split into `ceil(pages / 100)` parts of `ceil(pages / partCount)` pages
each (the final part takes the remainder).  The PDF library itself is
external: a part is modelled by the 0-indexed pages copied into it
(`pageIndices` in the source), which is what the claims are about. -/

/-- `MAX_PAGES_PER_PART`. -/
def maxPagesPerPart : Nat := 100

/-- `calculatePartCount(pageCount)` (`Math.ceil` on naturals). -/
def calculatePartCount (pageCount : Nat) : Nat :=
  if pageCount ≤ maxPagesPerPart then 1
  else (pageCount + maxPagesPerPart - 1) / maxPagesPerPart

/-- `needsSplit(sizeBytes)`: any PDF above 1 MB is checked for splitting. -/
def needsSplit (sizeBytes : Nat) : Bool :=
  sizeBytes > 1 * 1024 * 1024

/-- `removeExtension(filename)`. -/
def removeExtension (filename : String) : String :=
  if List.isSuffixOf (".pdf").data (toLowerStr filename).data then
    ⟨filename.data.take (filename.data.length - 4)⟩
  else filename

/-- One part produced by `splitPdf`; `pages` is the list of 0-indexed
source pages copied into the part (`pageIndices`). -/
structure SplitPdfPart where
  filename : String
  pages : List Nat
  partIndex : Nat
  totalParts : Nat
  pageStart : Nat
  pageEnd : Nat

/-- Result of `splitPdf`. -/
structure SplitResult where
  parts : List SplitPdfPart
  originalFilename : String
  wasSplit : Bool

/-- The `for (let i = 0; i < partCount; i++)` loop of `splitPdf`; the loop
`break`s at the first `i` with `startPage >= totalPages`, and that
condition is monotone in `i`, so the loop is a `takeWhile`. -/
def splitLoop (totalPages partCount pagesPerPart : Nat) (baseName : String) :
    List SplitPdfPart :=
  ((List.range partCount).takeWhile fun i => i * pagesPerPart < totalPages).map
    fun i =>
      { filename := baseName ++ "-Part-" ++ toString i ++ ".pdf"
        pages := List.range' (i * pagesPerPart)
          (min ((i + 1) * pagesPerPart) totalPages - i * pagesPerPart)
        partIndex := i
        totalParts := partCount
        pageStart := i * pagesPerPart + 1
        pageEnd := min ((i + 1) * pagesPerPart) totalPages }

/-- `splitPdf(buffer, filename)`, as a function of the page count that
`PDFDocument.load` reports for the buffer. -/
def splitPdf (totalPages : Nat) (filename : String) : SplitResult :=
  let partCount := calculatePartCount totalPages
  if partCount = 1 then
    { parts := [{ filename := filename, pages := List.range' 0 totalPages,
                  partIndex := 0, totalParts := 1, pageStart := 1,
                  pageEnd := totalPages }],
      originalFilename := filename, wasSplit := false }
  else
    { parts := splitLoop totalPages partCount
        ((totalPages + partCount - 1) / partCount) (removeExtension filename),
      originalFilename := filename, wasSplit := true }

/-- Gluing equal consecutive page chunks: `k` chunks of `q` pages starting
at multiples of `q`, followed by the remainder, cover `[0, P)` exactly. -/
theorem join_chunks (q : Nat) : ∀ (k P : Nat), k * q ≤ P →
    (((List.range k).map fun i => List.range' (i * q) q).flatten) ++
        List.range' (k * q) (P - k * q) = List.range' 0 P := by
  intro k
  induction k with
  | zero => intro P h; simp
  | succ k ih =>
    intro P h
    have hsucc : (k + 1) * q = k * q + q := Nat.succ_mul k q
    rw [List.range_succ, List.map_append, List.flatten_append]
    simp only [List.map_cons, List.map_nil, List.flatten_cons, List.flatten_nil,
      List.append_nil]
    rw [List.append_assoc]
    rw [show List.range' (k * q) q ++ List.range' ((k + 1) * q) (P - (k + 1) * q) =
          List.range' (k * q) (P - k * q) by
        rw [hsucc, List.range'_append_1 (k * q) q (P - (k * q + q))]
        congr 1
        omega]
    exact ih P (by omega)

/-- C6 counterexample: a 250-page PDF is split into parts of 84, 84 and 82
pages — the page counts are NOT divided as evenly as possible (an even
division into 3 parts would be 84/83/83; two parts differ by 2). -/
theorem splitPdf_not_as_even_as_possible :
    (((splitPdf 250 "doc.pdf").parts.map fun p => p.pages.length) =
        [84, 84, 82]) ∧
      ¬(∀ a ∈ ((splitPdf 250 "doc.pdf").parts.map fun p => p.pages.length),
          ∀ b ∈ ((splitPdf 250 "doc.pdf").parts.map fun p => p.pages.length),
          a ≤ b + 1) := by
  decide

/-- C6 (amended): for every PDF of `P > 100` pages, `splitPdf` produces
`ceil(P/100)` parts — the minimum number with no part above the 100-page
limit; every part is nonempty and at most 100 pages; the page counts sum
to `P`; the concatenated parts are exactly the pages `0..P-1` in order (no
page is split across or dropped); the parts are equal chunks of
`ceil(P/partCount)` pages with the final part taking the remainder (so
sizes may differ by more than one — not "as evenly as possible"). -/
theorem splitPdf_bounds (P : Nat) (filename : String) (hP : maxPagesPerPart < P) :
    (splitPdf P filename).wasSplit = true ∧
    (splitPdf P filename).parts.length = calculatePartCount P ∧
    P ≤ calculatePartCount P * maxPagesPerPart ∧
    (calculatePartCount P - 1) * maxPagesPerPart < P ∧
    (((splitPdf P filename).parts.map fun p => p.pages.length) =
      List.replicate (calculatePartCount P - 1)
          ((P + calculatePartCount P - 1) / calculatePartCount P) ++
        [P - (calculatePartCount P - 1) *
          ((P + calculatePartCount P - 1) / calculatePartCount P)]) ∧
    (((splitPdf P filename).parts.map fun p => p.pages.length).sum = P) ∧
    (∀ part ∈ (splitPdf P filename).parts,
        0 < part.pages.length ∧ part.pages.length ≤ maxPagesPerPart) ∧
    (((splitPdf P filename).parts.map fun p => p.pages).flatten =
      List.range' 0 P) := by
  have h100 : maxPagesPerPart = 100 := rfl
  rw [h100] at hP
  -- the part count and chunk size, with their division facts
  have hc : calculatePartCount P = (P + 99) / 100 := by
    unfold calculatePartCount maxPagesPerPart
    rw [if_neg (by omega)]
    omega
  set C : Nat := (P + 99) / 100 with hCdef
  have d1 := Nat.div_add_mod (P + 99) 100
  have m1 : (P + 99) % 100 < 100 := Nat.mod_lt _ (by norm_num)
  have hPC : P ≤ 100 * C := by omega
  have hPC' : 100 * (C - 1) < P := by omega
  have hC2 : 2 ≤ C := by omega
  set q : Nat := (P + C - 1) / C with hqdef
  have d2 : C * q + (P + C - 1) % C = P + C - 1 := by
    rw [hqdef]; exact Nat.div_add_mod _ _
  have m2 : (P + C - 1) % C < C := Nat.mod_lt _ (by omega)
  have hcq : P ≤ C * q := by omega
  have hq100 : q ≤ 100 := by
    have h1 : C * q < C * 101 := by omega
    have h2 := Nat.lt_of_mul_lt_mul_left h1
    omega
  have hq1 : 0 < q := by
    rcases Nat.eq_zero_or_pos q with h0 | h0
    · rw [h0, Nat.mul_zero] at hcq; omega
    · exact h0
  have hlast : (C - 1) * q < P := by
    have h1 : (C - 1) * q ≤ (C - 1) * 100 := Nat.mul_le_mul_left _ hq100
    have h2 : (C - 1) * 100 = 100 * (C - 1) := Nat.mul_comm _ _
    omega
  have hmono : ∀ i, i < C → i * q < P := by
    intro i hi
    have h1 : i * q ≤ (C - 1) * q := Nat.mul_le_mul_right q (by omega)
    omega
  -- evaluate splitPdf on the split branch
  have hCne1 : calculatePartCount P ≠ 1 := by rw [hc]; omega
  have hsplit : splitPdf P filename =
      { parts := splitLoop P C q (removeExtension filename),
        originalFilename := filename, wasSplit := true } := by
    unfold splitPdf
    rw [if_neg hCne1, hc, ← hqdef]
  -- the loop break never fires: the takeWhile keeps the whole range
  have htw : ((List.range C).takeWhile fun i => decide (i * q < P)) =
      List.range C := by
    rw [List.takeWhile_eq_self_iff]
    intro i hi
    exact decide_eq_true (hmono i (List.mem_range.mp hi))
  have hloop : splitLoop P C q (removeExtension filename) =
      (List.range C).map fun i =>
        { filename := removeExtension filename ++ "-Part-" ++ toString i ++ ".pdf"
          pages := List.range' (i * q) (min ((i + 1) * q) P - i * q)
          partIndex := i
          totalParts := C
          pageStart := i * q + 1
          pageEnd := min ((i + 1) * q) P } := by
    unfold splitLoop
    rw [htw]
  obtain ⟨k, hk⟩ : ∃ k, C = k + 1 := ⟨C - 1, by omega⟩
  -- per-part page counts
  have hsize_lt : ∀ i, i < k → min ((i + 1) * q) P - i * q = q := by
    intro i hik
    have h1 : (i + 1) * q ≤ (C - 1) * q := Nat.mul_le_mul_right q (by omega)
    have h2 : (i + 1) * q < P := by omega
    rw [min_eq_left (Nat.le_of_lt h2), Nat.succ_mul]
    omega
  have hsize_last : min ((k + 1) * q) P - k * q = P - k * q := by
    rw [← hk, min_eq_right hcq]
  have hk_lt : k * q < P := by
    have hx := hlast
    rw [hk] at hx
    simpa using hx
  -- the list of page counts
  have hsizes : ((splitPdf P filename).parts.map fun p => p.pages.length) =
      List.replicate k q ++ [P - k * q] := by
    rw [hsplit]
    show ((splitLoop P C q (removeExtension filename)).map
      fun p => p.pages.length) = _
    rw [hloop, List.map_map]
    rw [hk, List.range_succ, List.map_append]
    refine congrArg₂ (· ++ ·) ?_ ?_
    · rw [List.eq_replicate_iff]
      constructor
      · simp
      · intro b hb
        rw [List.mem_map] at hb
        obtain ⟨i, hi, hbi⟩ := hb
        rw [List.mem_range] at hi
        rw [← hbi]
        show (List.range' (i * q) (min ((i + 1) * q) P - i * q)).length = q
        rw [List.length_range', hsize_lt i hi]
    · simp only [List.map_cons, List.map_nil]
      show [(List.range' (k * q) (min ((k + 1) * q) P - k * q)).length] = _
      rw [List.length_range', hsize_last]
  refine ⟨by rw [hsplit], ?_, ?_, ?_, ?_, ?_, ?_, ?_⟩
  · -- number of parts
    rw [hsplit]
    show (splitLoop P C q (removeExtension filename)).length = _
    rw [hloop, List.length_map, List.length_range, hc]
  · rw [hc, h100]; omega
  · rw [hc, h100]; omega
  · rw [hsizes, hc, ← hqdef, hk]
    simp
  · rw [hsizes]
    rw [List.sum_append, List.sum_replicate, smul_eq_mul]
    simp only [List.sum_cons, List.sum_nil]
    omega
  · intro part hpart
    have hmem : part.pages.length ∈
        ((splitPdf P filename).parts.map fun p => p.pages.length) :=
      List.mem_map_of_mem _ hpart
    rw [hsizes, List.mem_append, List.mem_replicate] at hmem
    rcases hmem with ⟨-, hb⟩ | hb
    · rw [hb, h100]; omega
    · simp only [List.mem_singleton] at hb
      rw [hb, h100]
      have hCq : P ≤ (k + 1) * q := by rw [← hk]; exact hcq
      rw [Nat.succ_mul] at hCq
      omega
  · -- concatenation of parts is exactly the page range
    rw [hsplit]
    show ((splitLoop P C q (removeExtension filename)).map
      fun p => p.pages).flatten = _
    rw [hloop, List.map_map]
    rw [hk, List.range_succ, List.map_append, List.flatten_append]
    simp only [List.map_cons, List.map_nil, List.flatten_cons, List.flatten_nil,
      List.append_nil]
    show (((List.range k).map fun i =>
        List.range' (i * q) (min ((i + 1) * q) P - i * q)).flatten) ++
        List.range' (k * q) (min ((k + 1) * q) P - k * q) = _
    rw [hsize_last]
    rw [List.map_congr_left (fun i hi => by
      rw [hsize_lt i (List.mem_range.mp hi)])]
    exact join_chunks q k P (Nat.le_of_lt hk_lt)

/-- Witness for C6's amended theorem at a concrete 250-page PDF. -/
theorem splitPdf_bounds_witness :
    maxPagesPerPart < 250 ∧
      ((splitPdf 250 "doc.pdf").parts.map fun p => p.pages.length).sum = 250 :=
  ⟨by decide, (splitPdf_bounds 250 "doc.pdf" (by decide)).2.2.2.2.2.1⟩

/-! ## PDF cache (src/unnamed/part_004, PdfCacheService)

`getOrUpload` keys the cache by the SHA-256 of the PDF bytes (the digest is
the external `crypto` call, a parameter `hashFn`); the index object
`entries` is modelled as a map from hash to entry, timestamps as integer
milliseconds (`Date.now()` / `new Date(x).getTime()`), and the provider
calls (`uploadFn`, and `deleteFn` of `runCleanup`) as emitted effects. -/

/-- `PdfCacheEntry` (timestamps in epoch milliseconds). -/
structure PdfCacheEntry where
  hash : String
  fileId : String
  uploadedAt : Int
  lastUsedAt : Int
  originalFilename : String
  sizeBytes : Nat

/-- The `entries` object of the cache index. -/
def CacheIndex := String → Option PdfCacheEntry

/-- Result of `getOrUpload`. -/
structure CacheResult where
  fileId : String
  fromCache : Bool
  hash : String

/-- Provider-facing calls the cache service can make. -/
inductive CacheEffect where
  | upload
  | remoteDelete (fileId : String)
deriving DecidableEq

/-- `CACHE_TTL_MS`: 7 days. -/
def cacheTtlMs : Int := 7 * 24 * 60 * 60 * 1000

/-- `isExpired(entry)`: not used for more than 7 days. -/
def isExpired (entry : PdfCacheEntry) (now : Int) : Bool :=
  now - entry.lastUsedAt > cacheTtlMs

/-- `getOrUpload(buffer, filename, uploadFn)`: on a hit with a non-expired
entry, refresh `lastUsedAt` and return the cached fileId; otherwise call
`uploadFn` (whose result is the parameter `uploadResult`) and store a fresh
entry.  Returns the result, the saved index, and the provider calls made. -/
def getOrUpload (hashFn : List Nat → String) (index : CacheIndex)
    (buffer : List Nat) (filename : String) (now : Int)
    (uploadResult : String) : CacheResult × CacheIndex × List CacheEffect :=
  -- `hash` in the source is computed once as `this.computeHash(buffer)`
  match index (hashFn buffer) with
  | some entry =>
    if isExpired entry now = false then
      -- cache hit: update lastUsedAt and save the index
      ({ fileId := entry.fileId, fromCache := true, hash := hashFn buffer },
       fun h => if h = hashFn buffer then some { entry with lastUsedAt := now }
                else index h,
       [])
    else
      -- expired: fall through to upload, overwriting the entry
      ({ fileId := uploadResult, fromCache := false, hash := hashFn buffer },
       fun h => if h = hashFn buffer then
                  some { hash := hashFn buffer, fileId := uploadResult,
                         uploadedAt := now, lastUsedAt := now,
                         originalFilename := filename,
                         sizeBytes := buffer.length }
                else index h,
       [CacheEffect.upload])
  | none =>
    -- cache miss: upload and store
    ({ fileId := uploadResult, fromCache := false, hash := hashFn buffer },
     fun h => if h = hashFn buffer then
                some { hash := hashFn buffer, fileId := uploadResult,
                       uploadedAt := now, lastUsedAt := now,
                       originalFilename := filename,
                       sizeBytes := buffer.length }
              else index h,
     [CacheEffect.upload])

/-- C8: calling `getOrUpload` twice with the same bytes within the
retention window uploads exactly once: the first call (a miss) uploads and
stores an entry; the second call is a cache hit that returns the stored
fileId with `fromCache = true` and refreshes `lastUsedAt` to the second
call's clock. -/
theorem cache_roundtrip_single_upload (hashFn : List Nat → String)
    (index : CacheIndex) (buffer : List Nat) (filename : String)
    (t1 t2 : Int) (up1 up2 : String)
    (hmiss : index (hashFn buffer) = none)
    (hwin : t2 - t1 ≤ cacheTtlMs) :
    (getOrUpload hashFn index buffer filename t1 up1).1.fromCache = false ∧
    (getOrUpload hashFn index buffer filename t1 up1).2.2 = [CacheEffect.upload] ∧
    (getOrUpload hashFn (getOrUpload hashFn index buffer filename t1 up1).2.1
        buffer filename t2 up2).1.fromCache = true ∧
    (getOrUpload hashFn (getOrUpload hashFn index buffer filename t1 up1).2.1
        buffer filename t2 up2).1.fileId = up1 ∧
    (getOrUpload hashFn (getOrUpload hashFn index buffer filename t1 up1).2.1
        buffer filename t2 up2).2.2 = [] ∧
    (getOrUpload hashFn (getOrUpload hashFn index buffer filename t1 up1).2.1
        buffer filename t2 up2).2.1 (hashFn buffer) =
      some { hash := hashFn buffer, fileId := up1, uploadedAt := t1,
             lastUsedAt := t2, originalFilename := filename,
             sizeBytes := buffer.length } := by
  have hfirst : getOrUpload hashFn index buffer filename t1 up1 =
      ({ fileId := up1, fromCache := false, hash := hashFn buffer },
       fun h => if h = hashFn buffer then
                  some { hash := hashFn buffer, fileId := up1,
                         uploadedAt := t1, lastUsedAt := t1,
                         originalFilename := filename,
                         sizeBytes := buffer.length }
                else index h,
       [CacheEffect.upload]) := by
    unfold getOrUpload
    rw [hmiss]
  have hlookup : (getOrUpload hashFn index buffer filename t1 up1).2.1
      (hashFn buffer) =
      some { hash := hashFn buffer, fileId := up1, uploadedAt := t1,
             lastUsedAt := t1, originalFilename := filename,
             sizeBytes := buffer.length } := by
    rw [hfirst]
    simp
  have hnotexp : isExpired
      { hash := hashFn buffer, fileId := up1, uploadedAt := t1,
        lastUsedAt := t1, originalFilename := filename,
        sizeBytes := buffer.length } t2 = false := by
    unfold isExpired
    simp only [decide_eq_false_iff_not, not_lt]
    exact hwin
  have hhitlemma : ∀ (idx : CacheIndex) (e : PdfCacheEntry),
      idx (hashFn buffer) = some e → isExpired e t2 = false →
      getOrUpload hashFn idx buffer filename t2 up2 =
        ({ fileId := e.fileId, fromCache := true, hash := hashFn buffer },
         fun h => if h = hashFn buffer then some { e with lastUsedAt := t2 }
                  else idx h,
         []) := by
    intro idx e hidx hexp
    unfold getOrUpload
    rw [hidx]
    dsimp only
    rw [hexp]
    rfl
  have hsecond : getOrUpload hashFn
      (getOrUpload hashFn index buffer filename t1 up1).2.1
      buffer filename t2 up2 =
      ({ fileId := up1, fromCache := true, hash := hashFn buffer },
       fun h => if h = hashFn buffer then
                  some { hash := hashFn buffer, fileId := up1,
                         uploadedAt := t1, lastUsedAt := t2,
                         originalFilename := filename,
                         sizeBytes := buffer.length }
                else (getOrUpload hashFn index buffer filename t1 up1).2.1 h,
       []) :=
    hhitlemma _ _ hlookup hnotexp
  refine ⟨by rw [hfirst], by rw [hfirst], by rw [hsecond], by rw [hsecond],
    by rw [hsecond], ?_⟩
  rw [hsecond]
  simp

/-- Witness for C8 at a concrete miss followed by a hit one second later. -/
theorem cache_roundtrip_single_upload_witness :
    ((fun _ : String => (none : Option PdfCacheEntry))
        ((fun _ : List Nat => "h1") [1, 2]) = none) ∧
      (getOrUpload (fun _ => "h1") (fun _ => none) [1, 2] "a.pdf" 0 "f1"
        ).1.fromCache = false ∧
      (getOrUpload (fun _ => "h1")
          (getOrUpload (fun _ => "h1") (fun _ => none) [1, 2] "a.pdf" 0 "f1").2.1
          [1, 2] "a.pdf" 1000 "f2").1.fromCache = true := by
  have h := cache_roundtrip_single_upload (fun _ => "h1") (fun _ => none)
    [1, 2] "a.pdf" 0 1000 "f1" "f2" rfl (by decide)
  exact ⟨rfl, h.1, h.2.2.1⟩

/-- C9: a `getOrUpload` whose hash matches an expired entry re-uploads
(`fromCache = false`, exactly one upload), overwrites the index entry with
the new fileId, and never issues a remote delete for the superseded
fileId — the old remote file is orphaned. -/
theorem cache_expired_entry_orphans_old_handle (hashFn : List Nat → String)
    (index : CacheIndex) (buffer : List Nat) (filename : String)
    (now : Int) (up : String) (entry : PdfCacheEntry)
    (hhit : index (hashFn buffer) = some entry)
    (hexp : isExpired entry now = true) :
    (getOrUpload hashFn index buffer filename now up).1.fromCache = false ∧
    (getOrUpload hashFn index buffer filename now up).2.2 =
      [CacheEffect.upload] ∧
    (∀ fid, CacheEffect.remoteDelete fid ∉
      (getOrUpload hashFn index buffer filename now up).2.2) ∧
    (getOrUpload hashFn index buffer filename now up).2.1 (hashFn buffer) =
      some { hash := hashFn buffer, fileId := up, uploadedAt := now,
             lastUsedAt := now, originalFilename := filename,
             sizeBytes := buffer.length } := by
  have heval : getOrUpload hashFn index buffer filename now up =
      ({ fileId := up, fromCache := false, hash := hashFn buffer },
       fun h => if h = hashFn buffer then
                  some { hash := hashFn buffer, fileId := up,
                         uploadedAt := now, lastUsedAt := now,
                         originalFilename := filename,
                         sizeBytes := buffer.length }
                else index h,
       [CacheEffect.upload]) := by
    unfold getOrUpload
    rw [hhit]
    dsimp only
    rw [hexp]
    rfl
  refine ⟨by rw [heval], by rw [heval], ?_, by rw [heval]; simp⟩
  intro fid
  rw [heval]
  simp

/-- Witness for C9 at a concrete entry expired by one millisecond. -/
theorem cache_expired_entry_orphans_old_handle_witness :
    ((fun h : String => if h = "h1"
        then some { hash := "h1", fileId := "old", uploadedAt := 0,
                    lastUsedAt := 0, originalFilename := "a.pdf",
                    sizeBytes := 2 : PdfCacheEntry }
        else none) ((fun _ : List Nat => "h1") [1, 2]) =
      some { hash := "h1", fileId := "old", uploadedAt := 0, lastUsedAt := 0,
             originalFilename := "a.pdf", sizeBytes := 2 }) ∧
      (getOrUpload (fun _ => "h1")
          (fun h => if h = "h1"
            then some { hash := "h1", fileId := "old", uploadedAt := 0,
                        lastUsedAt := 0, originalFilename := "a.pdf",
                        sizeBytes := 2 }
            else none)
          [1, 2] "a.pdf" 604800001 "new").1.fromCache = false := by
  have h := cache_expired_entry_orphans_old_handle (fun _ => "h1")
    (fun h => if h = "h1"
      then some { hash := "h1", fileId := "old", uploadedAt := 0,
                  lastUsedAt := 0, originalFilename := "a.pdf",
                  sizeBytes := 2 }
      else none)
    [1, 2] "a.pdf" 604800001 "new"
    { hash := "h1", fileId := "old", uploadedAt := 0, lastUsedAt := 0,
      originalFilename := "a.pdf", sizeBytes := 2 }
    rfl (by decide)
  exact ⟨rfl, h.1⟩


/-! ## Atomic write discipline of the shared JSON state

The write sequences of the four writers of shared JSON state, as lists of
file-system operations.  `saveIndex` (cache index, part_004),
`saveThread` (thread files, part_005) and `saveProcessedEmail` (output
items, traitement-ia file-storage.ts) write a `.tmp` file then rename it
over the target; `markAsProcessed` (processed-id ledger, orchestrator
part_000) writes the target path directly — the repository root
documentation (rule "Atomicite: ecriture fichiers via tmp + rename")
notwithstanding. -/

/-- A file-system side effect. -/
inductive FsOp where
  | write (path : String) (content : String)
  | rename (src dst : String)
deriving DecidableEq

/-- `saveIndex`: `writeFile(tempPath); rename(tempPath, indexPath)` with
`tempPath = indexPath + ".tmp"`. -/
def saveIndexOps (indexPath : String) (content : String) : List FsOp :=
  [FsOp.write (indexPath ++ ".tmp") content,
   FsOp.rename (indexPath ++ ".tmp") indexPath]

/-- `saveThread`: the thread file `threadDir/[hash].json` written via its
`.tmp` sibling then renamed. -/
def saveThreadOps (threadDir baseSubjectHash : String) (content : String) :
    List FsOp :=
  [FsOp.write (threadDir ++ "/" ++ baseSubjectHash ++ ".json" ++ ".tmp") content,
   FsOp.rename (threadDir ++ "/" ++ baseSubjectHash ++ ".json" ++ ".tmp")
     (threadDir ++ "/" ++ baseSubjectHash ++ ".json")]

/-- `saveProcessedEmail`: the output item `outputPath/[id].ia.json` written
via its `.tmp` sibling then renamed. -/
def saveProcessedEmailOps (outputPath emailId : String) (content : String) :
    List FsOp :=
  [FsOp.write (outputPath ++ "/" ++ emailId ++ ".ia.json" ++ ".tmp") content,
   FsOp.rename (outputPath ++ "/" ++ emailId ++ ".ia.json" ++ ".tmp")
     (outputPath ++ "/" ++ emailId ++ ".ia.json")]

/-- `markAsProcessed`: `await writeFile(PROCESSED_IDS_PATH,
JSON.stringify(cleaned, null, 2))` — a direct write of the ledger file,
with no temporary file and no rename. -/
def markAsProcessedOps (processedIdsPath : String) (content : String) :
    List FsOp :=
  [FsOp.write processedIdsPath content]

/-- A write sequence replaces `target` atomically when it writes some other
file and then renames it over `target` in one step. -/
def IsAtomicReplace (target : String) (ops : List FsOp) : Prop :=
  ∃ tmp content, tmp ≠ target ∧
    ops = [FsOp.write tmp content, FsOp.rename tmp target]

theorem append_tmp_ne (p : String) : p ++ ".tmp" ≠ p := by
  intro h
  have hl := congrArg String.length h
  rw [String.length_append] at hl
  rw [show (".tmp").length = 4 from rfl] at hl
  omega

/-- C3: `saveIndex`, `saveThread` and `saveProcessedEmail` follow the
write-temporary-then-rename pattern, but the processed-id ledger write
(`markAsProcessed`) is a direct in-place `writeFile` with no temporary
file and no rename — a crash mid-write can leave the ledger torn. -/
theorem processed_ids_ledger_not_atomic :
    (∀ p c, IsAtomicReplace p (saveIndexOps p c)) ∧
    (∀ d h c, IsAtomicReplace (d ++ "/" ++ h ++ ".json")
        (saveThreadOps d h c)) ∧
    (∀ o i c, IsAtomicReplace (o ++ "/" ++ i ++ ".ia.json")
        (saveProcessedEmailOps o i c)) ∧
    (∀ p c, ¬ IsAtomicReplace p (markAsProcessedOps p c)) ∧
    markAsProcessedOps "/app/storage/processed_ids.json" "{}" =
      [FsOp.write "/app/storage/processed_ids.json" "{}"] := by
  refine ⟨?_, ?_, ?_, ?_, rfl⟩
  · intro p c
    exact ⟨p ++ ".tmp", c, append_tmp_ne p, rfl⟩
  · intro d h c
    exact ⟨d ++ "/" ++ h ++ ".json" ++ ".tmp", c,
      append_tmp_ne (d ++ "/" ++ h ++ ".json"), rfl⟩
  · intro o i c
    exact ⟨o ++ "/" ++ i ++ ".ia.json" ++ ".tmp", c,
      append_tmp_ne (o ++ "/" ++ i ++ ".ia.json"), rfl⟩
  · intro p c hat
    obtain ⟨tmp, content, hne, heq⟩ := hat
    exact absurd (congrArg List.length heq) (by simp [markAsProcessedOps])

/-! ## Import processor (src/traitement-ia/src/processors/import-processor.ts)
and the documents table (database-service.ts, bundled with file-storage.ts)

The `documents` table (`content_hash TEXT UNIQUE NOT NULL`) is a list of
rows; `processSinglePdf` checks the hash, and either returns the stored
record as a duplicate, or uploads / signs / indexes / inserts.  Provider
outcomes (`uploadPdf`, `getSignedUrl`, the indexation chat call) are
parameters; a `Except.error` models a thrown provider error, and
`indexation = none` models a null `parseIndexationResponse`. -/

/-- A row of the `documents` table. -/
structure DocRow where
  id : String
  mistral_file_id : String
  filename : String
  source_path : Option String
  title : Option String
  document_type : Option String
  subjects : List String
  keywords : List String
  summary : Option String
  page_count : Option Nat
  content_hash : String

/-- JavaScript `x || null` on an optional string: empty string is falsy. -/
def jsOrNull (x : Option String) : Option String :=
  match x with
  | some s => if s = "" then none else some s
  | none => none

/-- JavaScript `s || null` on a string. -/
def jsStrOrNull (s : String) : Option String :=
  if s = "" then none else some s

/-- JavaScript `n || null` on an optional number: `0` is falsy. -/
def jsNatOrNull (x : Option Nat) : Option Nat :=
  match x with
  | some n => if n = 0 then none else some n
  | none => none

/-- `documentExistsByHash`: `SELECT 1 FROM documents WHERE content_hash = ?`. -/
def documentExistsByHash (db : List DocRow) (h : String) : Bool :=
  db.any fun row => row.content_hash = h

/-- `getDocumentByHash`: `SELECT * FROM documents WHERE content_hash = ?`. -/
def getDocumentByHash (db : List DocRow) (h : String) : Option DocRow :=
  db.find? fun row => row.content_hash = h

/-- `insertDocument`: appends the new row (the UNIQUE constraint on
`content_hash` would reject a duplicate; the processor only inserts after
`documentExistsByHash` returned false). -/
def insertDocument (db : List DocRow) (row : DocRow) : List DocRow :=
  db ++ [row]

/-- The parsed indexation response (`parseIndexationResponse` already
replaced missing/falsy fields by null / empty arrays). -/
structure IndexationResponse where
  title : Option String
  document_type : Option String
  subjects : List String
  keywords : List String
  summary : Option String
  page_count : Option Nat

/-- Provider outcomes for one `processSinglePdf` call. -/
structure SingleEnv where
  uploadResult : Except String String
  signedUrl : Except String String
  indexation : Option IndexationResponse
  newId : String

/-- Provider-facing calls made while importing one PDF. -/
inductive ProviderCall where
  | upload
  | getSignedUrl
  | indexChat
deriving DecidableEq

/-- `ImportedDocument` (split metadata attached later by `processImport`). -/
structure ImportedDocument where
  filename : String
  sourcePath : Option String
  title : Option String
  documentType : Option String
  subjects : List String
  summary : Option String
  isDuplicate : Bool
  error : Option String
  wasSplit : Bool
  partIndex : Option Nat
  totalParts : Option Nat
  pageRange : Option String

/-- The failed-import document (`catch` branch of `processSinglePdf`). -/
def importErrorDoc (filename : String) (sourcePath : String) (msg : String) :
    ImportedDocument :=
  { filename := filename, sourcePath := jsStrOrNull sourcePath,
    title := none, documentType := none, subjects := [], summary := none,
    isDuplicate := false, error := some msg,
    wasSplit := false, partIndex := none, totalParts := none,
    pageRange := none }

/-- `processSinglePdf(filename, sourcePath, buffer, ...)`: hash, dedupe
check, then upload / sign / index / insert.  Returns the produced
`ImportedDocument`, the new table state, and the provider calls made. -/
def processSinglePdf (hashFn : List Nat → String) (db : List DocRow)
    (env : SingleEnv) (filename : String) (sourcePath : String)
    (buffer : List Nat) :
    ImportedDocument × List DocRow × List ProviderCall :=
  if documentExistsByHash db (hashFn buffer) then
    match getDocumentByHash db (hashFn buffer) with
    | some existing =>
      ({ filename := filename, sourcePath := jsStrOrNull sourcePath,
         title := jsOrNull existing.title,
         documentType := jsOrNull existing.document_type,
         subjects := existing.subjects,
         summary := jsOrNull existing.summary,
         isDuplicate := true, error := none,
         wasSplit := false, partIndex := none, totalParts := none,
         pageRange := none }, db, [])
    | none =>
      -- `existing?.x || null` with a null `existing` (unreachable: the
      -- hash was just found)
      ({ filename := filename, sourcePath := jsStrOrNull sourcePath,
         title := none, documentType := none, subjects := [],
         summary := none, isDuplicate := true, error := none,
         wasSplit := false, partIndex := none, totalParts := none,
         pageRange := none }, db, [])
  else
    match env.uploadResult with
    | Except.error e => (importErrorDoc filename sourcePath e, db,
        [ProviderCall.upload])
    | Except.ok fileId =>
      match env.signedUrl with
      | Except.error e => (importErrorDoc filename sourcePath e, db,
          [ProviderCall.upload, ProviderCall.getSignedUrl])
      | Except.ok _documentUrl =>
        match env.indexation with
        | none =>
          (importErrorDoc filename sourcePath
            "Failed to analyze document with IA Indexation", db,
           [ProviderCall.upload, ProviderCall.getSignedUrl,
            ProviderCall.indexChat])
        | some ir =>
          ({ filename := filename, sourcePath := jsStrOrNull sourcePath,
             title := ir.title, documentType := ir.document_type,
             subjects := ir.subjects, summary := ir.summary,
             isDuplicate := false, error := none,
             wasSplit := false, partIndex := none, totalParts := none,
             pageRange := none },
           insertDocument db
             { id := env.newId, mistral_file_id := fileId,
               filename := filename, source_path := jsStrOrNull sourcePath,
               title := jsOrNull ir.title,
               document_type := jsOrNull ir.document_type,
               subjects := ir.subjects, keywords := ir.keywords,
               summary := jsOrNull ir.summary,
               page_count := jsNatOrNull ir.page_count,
               content_hash := hashFn buffer },
           [ProviderCall.upload, ProviderCall.getSignedUrl,
            ProviderCall.indexChat])


theorem jsOrNull_idem (x : Option String) : jsOrNull (jsOrNull x) = jsOrNull x := by
  unfold jsOrNull
  match x with
  | none => rfl
  | some s =>
    by_cases hs : s = ""
    · simp [hs]
    · simp [hs]

/-- C1: importing byte-identical content a second time resolves to the
existing `documents` row: `processSinglePdf` returns `isDuplicate = true`
carrying the stored row's metadata, makes no provider call and no insert
(conjunct 1); the table never gains a second row with the same
`content_hash` (conjunct 2: hash-uniqueness is preserved by every call);
and a successful first import inserts exactly one row, with normalized
metadata, that a subsequent lookup finds (conjunct 3). -/
theorem duplicate_import_resolves_to_existing (hashFn : List Nat → String) :
    (∀ (db : List DocRow) (env : SingleEnv) (filename sourcePath : String)
        (buffer : List Nat) (row : DocRow),
        getDocumentByHash db (hashFn buffer) = some row →
        (processSinglePdf hashFn db env filename sourcePath buffer).1.isDuplicate
            = true ∧
          (processSinglePdf hashFn db env filename sourcePath buffer).1.error
            = none ∧
          (processSinglePdf hashFn db env filename sourcePath buffer).1.title
            = jsOrNull row.title ∧
          (processSinglePdf hashFn db env filename sourcePath buffer).1.documentType
            = jsOrNull row.document_type ∧
          (processSinglePdf hashFn db env filename sourcePath buffer).1.subjects
            = row.subjects ∧
          (processSinglePdf hashFn db env filename sourcePath buffer).1.summary
            = jsOrNull row.summary ∧
          (processSinglePdf hashFn db env filename sourcePath buffer).2.1 = db ∧
          (processSinglePdf hashFn db env filename sourcePath buffer).2.2 = []) ∧
    (∀ (db : List DocRow) (env : SingleEnv) (filename sourcePath : String)
        (buffer : List Nat),
        (db.map fun r => r.content_hash).Nodup →
        ((processSinglePdf hashFn db env filename sourcePath buffer).2.1.map
          fun r => r.content_hash).Nodup) ∧
    (∀ (db : List DocRow) (env : SingleEnv) (filename sourcePath : String)
        (buffer : List Nat) (fileId url : String) (ir : IndexationResponse),
        documentExistsByHash db (hashFn buffer) = false →
        env.uploadResult = Except.ok fileId →
        env.signedUrl = Except.ok url →
        env.indexation = some ir →
        (processSinglePdf hashFn db env filename sourcePath buffer).2.1 =
            db ++ [{ id := env.newId, mistral_file_id := fileId,
                     filename := filename,
                     source_path := jsStrOrNull sourcePath,
                     title := jsOrNull ir.title,
                     document_type := jsOrNull ir.document_type,
                     subjects := ir.subjects, keywords := ir.keywords,
                     summary := jsOrNull ir.summary,
                     page_count := jsNatOrNull ir.page_count,
                     content_hash := hashFn buffer }] ∧
          (processSinglePdf hashFn db env filename sourcePath buffer).1.isDuplicate
            = false ∧
          (processSinglePdf hashFn db env filename sourcePath buffer).1.error
            = none ∧
          getDocumentByHash
              (processSinglePdf hashFn db env filename sourcePath buffer).2.1
              (hashFn buffer) =
            some { id := env.newId, mistral_file_id := fileId,
                   filename := filename,
                   source_path := jsStrOrNull sourcePath,
                   title := jsOrNull ir.title,
                   document_type := jsOrNull ir.document_type,
                   subjects := ir.subjects, keywords := ir.keywords,
                   summary := jsOrNull ir.summary,
                   page_count := jsNatOrNull ir.page_count,
                   content_hash := hashFn buffer } ∧
          jsOrNull (jsOrNull ir.title) = jsOrNull ir.title) := by
  refine ⟨?_, ?_, ?_⟩
  · -- duplicate branch
    intro db env filename sourcePath buffer row hfound
    have hmem := List.mem_of_find?_eq_some hfound
    have hp := List.find?_some hfound
    have hex : documentExistsByHash db (hashFn buffer) = true := by
      unfold documentExistsByHash
      rw [List.any_eq_true]
      exact ⟨row, hmem, hp⟩
    have heval : processSinglePdf hashFn db env filename sourcePath buffer =
        ({ filename := filename, sourcePath := jsStrOrNull sourcePath,
           title := jsOrNull row.title,
           documentType := jsOrNull row.document_type,
           subjects := row.subjects,
           summary := jsOrNull row.summary,
           isDuplicate := true, error := none,
           wasSplit := false, partIndex := none, totalParts := none,
           pageRange := none }, db, []) := by
      unfold processSinglePdf
      rw [hex, if_pos rfl]
      rw [show getDocumentByHash db (hashFn buffer) = some row from hfound]
    rw [heval]
    exact ⟨rfl, rfl, rfl, rfl, rfl, rfl, rfl, rfl⟩
  · -- hash uniqueness preserved
    intro db env filename sourcePath buffer hnd
    unfold processSinglePdf
    by_cases hex : documentExistsByHash db (hashFn buffer) = true
    · rw [hex, if_pos rfl]
      cases hfind : getDocumentByHash db (hashFn buffer) <;> exact hnd
    · rw [Bool.not_eq_true] at hex
      rw [hex, if_neg (by simp)]
      have hnotin : hashFn buffer ∉ db.map fun r => r.content_hash := by
        intro hmem
        rw [List.mem_map] at hmem
        obtain ⟨r, hr, hh⟩ := hmem
        unfold documentExistsByHash at hex
        rw [List.any_eq_false] at hex
        have hcontra := hex r hr
        simp only [decide_eq_true_eq] at hcontra
        exact hcontra hh
      cases env.uploadResult with
      | error e => exact hnd
      | ok fileId =>
        cases env.signedUrl with
        | error e => exact hnd
        | ok url =>
          cases env.indexation with
          | none => exact hnd
          | some ir =>
            unfold insertDocument
            rw [List.map_append]
            rw [List.nodup_append]
            exact ⟨hnd, List.nodup_singleton _, by
              intro x hx hy
              simp only [List.map_cons, List.map_nil, List.mem_singleton] at hy
              rw [hy] at hx
              exact hnotin hx⟩
  · -- successful first import inserts one normalized row
    intro db env filename sourcePath buffer fileId url ir hex hup hurl hir
    have heval : processSinglePdf hashFn db env filename sourcePath buffer =
        ({ filename := filename, sourcePath := jsStrOrNull sourcePath,
           title := ir.title, documentType := ir.document_type,
           subjects := ir.subjects, summary := ir.summary,
           isDuplicate := false, error := none,
           wasSplit := false, partIndex := none, totalParts := none,
           pageRange := none },
         db ++ [{ id := env.newId, mistral_file_id := fileId,
                  filename := filename,
                  source_path := jsStrOrNull sourcePath,
                  title := jsOrNull ir.title,
                  document_type := jsOrNull ir.document_type,
                  subjects := ir.subjects, keywords := ir.keywords,
                  summary := jsOrNull ir.summary,
                  page_count := jsNatOrNull ir.page_count,
                  content_hash := hashFn buffer }],
         [ProviderCall.upload, ProviderCall.getSignedUrl,
          ProviderCall.indexChat]) := by
      unfold processSinglePdf
      rw [hex, if_neg (by simp)]
      rw [hup, hurl, hir]
      rfl
    have hnone : getDocumentByHash db (hashFn buffer) = none := by
      unfold getDocumentByHash
      rw [List.find?_eq_none]
      intro r hr
      unfold documentExistsByHash at hex
      rw [List.any_eq_false] at hex
      simpa using hex r hr
    refine ⟨by rw [heval], by rw [heval], by rw [heval], ?_,
      jsOrNull_idem ir.title⟩
    rw [heval]
    show getDocumentByHash (db ++ [_]) (hashFn buffer) = _
    unfold getDocumentByHash
    rw [List.find?_append]
    unfold getDocumentByHash at hnone
    rw [hnone]
    simp

/-- A stored row and environment for C1's witness. -/
def c1Row : DocRow :=
  { id := "1", mistral_file_id := "f1", filename := "orig.pdf",
    source_path := none, title := some "Titre", document_type := some "contrat",
    subjects := ["bail"], keywords := ["loyer"], summary := some "Resume",
    page_count := some 3, content_hash := "h" }

/-- Provider outcomes for C1's witness (irrelevant on the duplicate path). -/
def c1Env : SingleEnv :=
  { uploadResult := Except.ok "f2", signedUrl := Except.ok "u",
    indexation := none, newId := "2" }

/-- Witness for C1 at a one-row table holding the hash of the re-imported
bytes. -/
theorem duplicate_import_resolves_to_existing_witness :
    getDocumentByHash [c1Row] ((fun _ : List Nat => "h") [7]) = some c1Row ∧
      (processSinglePdf (fun _ => "h") [c1Row] c1Env "copy.pdf" "" [7]).1.isDuplicate
          = true ∧
      (processSinglePdf (fun _ => "h") [c1Row] c1Env "copy.pdf" "" [7]).2.1
          = [c1Row] ∧
      (processSinglePdf (fun _ => "h") [c1Row] c1Env "copy.pdf" "" [7]).2.2
          = [] := by
  have h := (duplicate_import_resolves_to_existing (fun _ => "h")).1
    [c1Row] c1Env "copy.pdf" "" [7] c1Row rfl
  exact ⟨rfl, h.1, h.2.2.2.2.2.2.1, h.2.2.2.2.2.2.2⟩


/-! ## Import pipeline (processImport, import-processor.ts)

`processImport` collects PDFs from the attachments (expanding ZIPs via the
external archive library, `env.extractZip`), then processes each PDF —
splitting PDFs above the size threshold by page count first — through
`processSinglePdf`.  The external pieces are parameters: the SHA-256
digest, the ZIP extractor, the PDF page counter and page-subrange
serializer (pdf-lib), and the provider outcomes of each successive API
call (`env.single`, indexed by `apiCallIndex`). -/

/-- An inbound attachment. -/
structure Attachment where
  filename : String
  buffer : List Nat

/-- A PDF queued for processing (`pdfsToProcess` entries). -/
structure ZipPdf where
  filename : String
  sourcePath : String
  buffer : List Nat

/-- `isZipFile(buffer)`: the `PK` magic. -/
def isZipFile (buffer : List Nat) : Bool :=
  if buffer.length < 4 then false
  else buffer.getD 0 0 = 0x50 && buffer.getD 1 0 = 0x4B

/-- `isZipFilename(filename)`. -/
def isZipFilename (filename : String) : Bool :=
  List.isSuffixOf (".zip").data (toLowerStr filename).data

/-- `filename.toLowerCase().endsWith('.pdf')`. -/
def isPdfFilename (filename : String) : Bool :=
  List.isSuffixOf (".pdf").data (toLowerStr filename).data

/-- `ImportStats`. -/
structure ImportStats where
  total : Nat
  imported : Nat
  duplicates : Nat
  errors : Nat
  ignored : Nat
  splitParts : Nat

/-- `ImportResult`. -/
structure ImportResult where
  success : Bool
  isZip : Bool
  documents : List ImportedDocument
  stats : ImportStats
  error : Option String

/-- External collaborators of `processImport`. -/
structure ImportEnv where
  hashFn : List Nat → String
  extractZip : List Nat → Except String (List ZipPdf × Nat)
  pageCount : List Nat → Except String Nat
  partBuffer : List Nat → Nat → Nat → List Nat
  single : Nat → SingleEnv

/-- The attachment-collection loop of `processImport`: expand ZIPs (an
extraction failure aborts the whole import), queue `.pdf` attachments,
count other files as ignored.  A ZIP assigns (not adds) its ignored count
to `stats.ignored`, as the source does. -/
def collectPdfs (env : ImportEnv) :
    List Attachment → List ZipPdf → Nat → Bool →
    Except (Bool × Nat × String) (List ZipPdf × Nat × Bool)
  | [], pdfs, ignored, isZip => Except.ok (pdfs, ignored, isZip)
  | att :: rest, pdfs, ignored, isZip =>
    if isZipFilename att.filename || isZipFile att.buffer then
      match env.extractZip att.buffer with
      | Except.error e =>
        Except.error (true, ignored, "Failed to extract ZIP archive: " ++ e)
      | Except.ok (zpdfs, ignoredCount) =>
        collectPdfs env rest (pdfs ++ zpdfs) ignoredCount true
    else if isPdfFilename att.filename then
      collectPdfs env rest (pdfs ++ [⟨att.filename, "", att.buffer⟩]) ignored isZip
    else
      collectPdfs env rest pdfs (ignored + 1) isZip

/-- The mutable loop state of `processImport`'s per-PDF phase. -/
structure ImportLoopState where
  db : List DocRow
  documents : List ImportedDocument
  imported : Nat
  duplicates : Nat
  errors : Nat
  splitParts : Nat
  apiCallIndex : Nat

/-- Record one produced document: push it and bump exactly one of the
duplicate / error / imported counters. -/
def tallyDoc (st : ImportLoopState) (doc : ImportedDocument)
    (db' : List DocRow) : ImportLoopState :=
  { st with
    db := db',
    documents := st.documents ++ [doc],
    duplicates := if doc.isDuplicate then st.duplicates + 1 else st.duplicates,
    errors := if doc.isDuplicate then st.errors
              else if doc.error.isSome then st.errors + 1 else st.errors,
    imported := if doc.isDuplicate then st.imported
                else if doc.error.isSome then st.imported
                else st.imported + 1 }

/-- The inner `for (const part of splitResult.parts)` loop. -/
def processParts (env : ImportEnv) (srcBuffer : List Nat) (sourcePath : String) :
    List SplitPdfPart → ImportLoopState → ImportLoopState
  | [], st => st
  | part :: rest, st =>
    let r := processSinglePdf env.hashFn st.db (env.single st.apiCallIndex)
      part.filename sourcePath
      (env.partBuffer srcBuffer (part.pageStart - 1) part.pageEnd)
    let doc :=
      { r.1 with
        wasSplit := true,
        partIndex := some part.partIndex,
        totalParts := some part.totalParts,
        pageRange := some (toString part.pageStart ++ "-" ++ toString part.pageEnd) }
    processParts env srcBuffer sourcePath rest
      (tallyDoc { st with apiCallIndex := st.apiCallIndex + 1 } doc r.2.1)

/-- The outer per-PDF loop of `processImport`. -/
def processPdfList (env : ImportEnv) :
    List ZipPdf → ImportLoopState → ImportLoopState
  | [], st => st
  | pdf :: rest, st =>
    if needsSplit pdf.buffer.length then
      match env.pageCount pdf.buffer with
      | Except.error e =>
        processPdfList env rest
          (tallyDoc st
            (importErrorDoc pdf.filename pdf.sourcePath
              ("Failed to split PDF: " ++ e)) st.db)
      | Except.ok totalPages =>
        let sr := splitPdf totalPages pdf.filename
        processPdfList env rest
          (processParts env pdf.buffer pdf.sourcePath sr.parts
            { st with splitParts := st.splitParts + sr.parts.length })
    else
      let r := processSinglePdf env.hashFn st.db (env.single st.apiCallIndex)
        pdf.filename pdf.sourcePath pdf.buffer
      processPdfList env rest
        (tallyDoc { st with apiCallIndex := st.apiCallIndex + 1 } r.1 r.2.1)

/-- `processImport(attachments, emailBody, modelLevel)`. -/
def processImport (env : ImportEnv) (db : List DocRow)
    (attachments : List Attachment) : ImportResult × List DocRow :=
  match collectPdfs env attachments [] 0 false with
  | Except.error (isZip, ignored, msg) =>
    ({ success := false, isZip := isZip, documents := [],
       stats := { total := 0, imported := 0, duplicates := 0, errors := 0,
                  ignored := ignored, splitParts := 0 },
       error := some msg }, db)
  | Except.ok (pdfs, ignored, isZip) =>
    if pdfs.length = 0 then
      ({ success := false, isZip := isZip, documents := [],
         stats := { total := 0, imported := 0, duplicates := 0, errors := 0,
                    ignored := ignored, splitParts := 0 },
         error := some "No PDF files found to import" }, db)
    else
      let final := processPdfList env pdfs
        { db := db, documents := [], imported := 0, duplicates := 0,
          errors := 0, splitParts := 0, apiCallIndex := 0 }
      ({ success := (decide (0 < final.imported) ||
                     decide (0 < final.duplicates)) ||
                    decide (final.errors = 0),
         isZip := isZip, documents := final.documents,
         stats := { total := pdfs.length, imported := final.imported,
                    duplicates := final.duplicates, errors := final.errors,
                    ignored := ignored, splitParts := final.splitParts },
         error := none }, final.db)

/-- A concrete environment for the C4 theorems. -/
def c4Env : ImportEnv :=
  { hashFn := fun _ => "h", extractZip := fun _ => Except.error "bad zip",
    pageCount := fun _ => Except.error "bad pdf",
    partBuffer := fun _ _ _ => [], single := fun _ => c1Env }

/-- C4 counterexample: an import whose only attachment is not a PDF (here
`readme.txt`) collects zero PDFs and has zero document-level errors, yet
`success` is `false` (with the error `No PDF files found to import`) —
refuting "zero errors reports success even when nothing was imported". -/
theorem processImport_no_pdfs_reports_failure :
    (processImport c4Env [] [⟨"readme.txt", [1, 2, 3]⟩]).1.stats.errors = 0 ∧
      (processImport c4Env [] [⟨"readme.txt", [1, 2, 3]⟩]).1.stats.imported = 0 ∧
      (processImport c4Env [] [⟨"readme.txt", [1, 2, 3]⟩]).1.stats.duplicates = 0 ∧
      (processImport c4Env [] [⟨"readme.txt", [1, 2, 3]⟩]).1.stats.ignored = 1 ∧
      (processImport c4Env [] [⟨"readme.txt", [1, 2, 3]⟩]).1.success = false ∧
      (processImport c4Env [] [⟨"readme.txt", [1, 2, 3]⟩]).1.error =
        some "No PDF files found to import" := by
  refine ⟨?_, ?_, ?_, ?_, ?_, ?_⟩ <;> decide

/-- C4 (amended): when at least one PDF was collected and ZIP extraction
did not fail (no early-return error is set), `success` is true exactly
when something was imported, or a duplicate was recognized, or there were
zero document-level errors; on the early-return paths (ZIP extraction
failure, or zero PDFs collected) `success` is always false, even with
zero document-level errors. -/
theorem processImport_success_formula (env : ImportEnv) (db : List DocRow)
    (attachments : List Attachment) :
    ((processImport env db attachments).1.error = none →
      ((processImport env db attachments).1.success = true ↔
        0 < (processImport env db attachments).1.stats.imported ∨
        0 < (processImport env db attachments).1.stats.duplicates ∨
        (processImport env db attachments).1.stats.errors = 0)) ∧
    ((processImport env db attachments).1.error ≠ none →
      (processImport env db attachments).1.success = false) := by
  unfold processImport
  cases hcol : collectPdfs env attachments [] 0 false with
  | error p =>
    obtain ⟨isZip, ignored, msg⟩ := p
    dsimp only
    refine ⟨?_, ?_⟩
    · intro hnone
      cases hnone
    · intro _
      rfl
  | ok p =>
    obtain ⟨pdfs, ignored, isZip⟩ := p
    dsimp only
    by_cases hlen : pdfs.length = 0
    · rw [if_pos hlen]
      refine ⟨?_, ?_⟩
      · intro hnone
        cases hnone
      · intro _
        rfl
    · rw [if_neg hlen]
      refine ⟨?_, ?_⟩
      · intro _
        simp only [Bool.or_eq_true, decide_eq_true_eq]
        constructor
        · intro h
          exact h.elim (fun h2 => h2.elim Or.inl (Or.inr ∘ Or.inl))
            (Or.inr ∘ Or.inr)
        · intro h
          exact h.elim (fun h2 => Or.inl (Or.inl h2))
            (fun h2 => h2.elim (fun h3 => Or.inl (Or.inr h3)) Or.inr)
      · intro hne
        exact absurd rfl hne

/-- Witness for C4's amended theorem: a single PDF whose indexation fails
(one error, nothing imported) — success is false, matching the formula. -/
theorem processImport_success_formula_witness :
    (processImport c4Env [] [⟨"a.pdf", [1]⟩]).1.error = none ∧
      ((processImport c4Env [] [⟨"a.pdf", [1]⟩]).1.success = true ↔
        0 < (processImport c4Env [] [⟨"a.pdf", [1]⟩]).1.stats.imported ∨
        0 < (processImport c4Env [] [⟨"a.pdf", [1]⟩]).1.stats.duplicates ∨
        (processImport c4Env [] [⟨"a.pdf", [1]⟩]).1.stats.errors = 0) :=
  ⟨rfl, (processImport_success_formula c4Env [] [⟨"a.pdf", [1]⟩]).1 rfl⟩


/-! ## Question pipeline (question-processor.ts, bundled with
compiler-processor.ts; preselection from src/unnamed/part_006)

`processQuestion` checks the catalog size, then runs preselection, the
readers and the compiler.  The model outcomes of the three stages are
parameters; the trace records which stages actually call the model (on the
non-empty-catalog path, preselection always reaches its single chat call;
each reader makes one; the compiler makes one when invoked).  Floating
point confidences and wall-clock `processingTimeMs` are omitted from the
embedding. -/

/-- `PreselectionResult` (selected documents are id/reason pairs). -/
structure PreselectionResult where
  success : Bool
  selectedDocuments : List (String × String)
  noRelevantDocs : Bool
  error : Option String

/-- A reader outcome, with the fields `processQuestion` inspects. -/
structure ReaderResult where
  documentId : String
  relevant : Bool
  extractions : List String

/-- A compiler outcome, with the fields `processQuestion` inspects. -/
structure CompilerResult where
  success : Bool
  answer : String
  documentsAnalyzed : Nat
  error : Option String

/-- `QuestionResult`. -/
structure QuestionResult where
  success : Bool
  answer : String
  formattedResponse : String
  error : Option String
  preselection : Option PreselectionResult
  readerResults : List ReaderResult
  compilerResult : Option CompilerResult

/-- Stage outcomes: `runPreselection`, `runReaders`, `runCompiler`, and
`formatCompilerResult` (string formatting of the final answer). -/
structure QuestionEnv where
  pres : PreselectionResult
  readers : List String → List ReaderResult
  compiler : List ReaderResult → CompilerResult
  formatCompiler : CompilerResult → String

/-- One chat-completion call to the inference provider. -/
inductive ModelCall where
  | preselect
  | reader (documentId : String)
  | compile
deriving DecidableEq

/-- `processQuestion(question, modelLevel)` as a function of the current
document count and the stage outcomes; also returns the model calls made. -/
def processQuestion (docCount : Nat) (env : QuestionEnv) (question : String) :
    QuestionResult × List ModelCall :=
  if docCount = 0 then
    ({ success := false, answer := "",
       formattedResponse := "Aucun document n\x27est présent dans la base de données.\n\nPour ajouter des documents, envoyez un email avec \x22(add)\x22 dans l\x27objet et le(s) document(s) PDF en pièce jointe.",
       error := some "No documents in database",
       preselection := none, readerResults := [], compilerResult := none },
     [])
  else
    if env.pres.success = false then
      ({ success := false, answer := "",
         formattedResponse := "Une erreur est survenue lors de l\x27analyse des documents.\n\nVeuillez réessayer ultérieurement.",
         error := env.pres.error,
         preselection := some env.pres, readerResults := [],
         compilerResult := none },
       [ModelCall.preselect])
    else if env.pres.noRelevantDocs || env.pres.selectedDocuments.length = 0 then
      ({ success := true, answer := "Aucun document pertinent",
         formattedResponse := "Aucun document dans la base ne semble traiter du sujet de votre question.\n\nDocuments analysés : " ++ toString docCount ++ "\n\nSi vous pensez qu\x27un document devrait être pertinent, vérifiez qu\x27il a bien été importé avec \x22(add)\x22.",
         error := none,
         preselection := some env.pres, readerResults := [],
         compilerResult := none },
       [ModelCall.preselect])
    else
      let documentIds := env.pres.selectedDocuments.map fun d => d.1
      let readerResults := env.readers documentIds
      let calls := ModelCall.preselect :: documentIds.map ModelCall.reader
      if (readerResults.any fun r => r.relevant || 0 < r.extractions.length)
          = false then
        ({ success := true, answer := "Pas d\x27information pertinente",
           formattedResponse := "Les documents analysés ne contiennent pas d\x27information directement pertinente pour votre question.\n\nDocuments analysés : " ++ toString readerResults.length ++ "\n\nEssayez de reformuler votre question ou vérifiez que les documents appropriés ont été importés.",
           error := none,
           preselection := some env.pres, readerResults := readerResults,
           compilerResult := none },
         calls)
      else
        let cr := env.compiler readerResults
        if cr.success = false then
          ({ success := false, answer := "",
             formattedResponse := "Une erreur est survenue lors de la synthèse des informations.\n\nVeuillez réessayer ultérieurement.",
             error := cr.error,
             preselection := some env.pres, readerResults := readerResults,
             compilerResult := some cr },
           calls ++ [ModelCall.compile])
        else
          ({ success := true, answer := cr.answer,
             formattedResponse := env.formatCompiler cr,
             error := none,
             preselection := some env.pres, readerResults := readerResults,
             compilerResult := some cr },
           calls ++ [ModelCall.compile])

/-- A stage-outcome environment whose preselection flags no relevant
documents (used to contrast the two early-exit paths). -/
def c2Env : QuestionEnv :=
  { pres := { success := true, selectedDocuments := [],
              noRelevantDocs := true, error := none },
    readers := fun _ => [],
    compiler := fun _ =>
      { success := false, answer := "", documentsAnalyzed := 0, error := none },
    formatCompiler := fun _ => "" }

/-- C2 (code bug): with an empty catalog, `processQuestion` returns early
with ZERO model calls and a prepared user-facing "no documents" message,
but marks the result `success = false` with `error = 'No documents in
database'` — so the caller treats it as a failure (the orchestrator
retries the email instead of sending the reply), contradicting the
claim/spec that the empty catalog is a success; the sibling
no-relevant-documents early exit IS returned with `success = true`. -/
theorem processQuestion_empty_catalog_is_error (env : QuestionEnv)
    (question : String) :
    (processQuestion 0 env question).1.success = false ∧
      (processQuestion 0 env question).1.error =
        some "No documents in database" ∧
      (processQuestion 0 env question).2 = [] ∧
      (processQuestion 0 env question).1.formattedResponse =
        "Aucun document n\x27est présent dans la base de données.\n\nPour ajouter des documents, envoyez un email avec \x22(add)\x22 dans l\x27objet et le(s) document(s) PDF en pièce jointe." ∧
      (processQuestion 1 c2Env question).1.success = true ∧
      (processQuestion 1 c2Env question).1.answer =
        "Aucun document pertinent" :=
  ⟨rfl, rfl, rfl, rfl, rfl, rfl⟩

end AskDoc
